import Mathlib

/-!
Verification of the Eve history engine in `lib/MyHomeKitTypes.js` of
homebridge-lib (the `History` service delegate and its helpers).

The JavaScript source is shallowly embedded: JS numbers that flow through
the 32-bit bitwise operators are modelled as `Int` with the ECMAScript
ToUint32/ToInt32 coercions made explicit; strings are Lean `String`s;
the sparse JS array `this._history` is modelled as a total function
`Int → HistEntry α` (JS arrays are objects keyed by integers); the
per-sensor entry payload is a type parameter `α`.
-/

set_option maxRecDepth 10000
set_option maxHeartbeats 1000000

namespace HomebridgeLib

/-- ECMAScript ToUint32 on an integral JS number. -/
def toUint32 (v : Int) : Nat := (v % 4294967296).toNat

/-- Reinterpret a 32-bit pattern as a signed JS 32-bit result (ToInt32). -/
def asInt32 (u : Nat) : Int :=
  if u % 4294967296 < 2147483648 then ((u % 4294967296 : Nat) : Int)
  else ((u % 4294967296 : Nat) : Int) - 4294967296

/-- JS `a & b` on integral numbers. -/
def jsAnd (a b : Int) : Int := asInt32 (toUint32 a &&& toUint32 b)

/-- JS `a | b` on integral numbers. -/
def jsOr (a b : Int) : Int := asInt32 (toUint32 a ||| toUint32 b)

/-- JS `a << n` on integral numbers (shift count already in `[0, 32)` at
all call sites; the `% 32` mirrors ECMAScript masking). -/
def jsShl (a : Int) (n : Nat) : Int := asInt32 (toUint32 a <<< (n % 32))

/-- JS `a >>> n` on integral numbers; the result is the unsigned value. -/
def jsShrU (a : Int) (n : Nat) : Int := ((toUint32 a >>> (n % 32) : Nat) : Int)

/-- Function `swap16` from MyHomeKitTypes.js:
`((value & 0xFF) << 8) | ((value >>> 8) & 0xFF)`. -/
def swap16 (value : Int) : Int :=
  jsOr (jsShl (jsAnd value 0xFF) 8) (jsAnd (jsShrU value 8) 0xFF)

/-- Function `swap32` from MyHomeKitTypes.js:
`((value & 0xFF) << 24) | ((value & 0xFF00) << 8) |
 ((value >>> 8) & 0xFF00) | ((value >>> 24) & 0xFF)`. -/
def swap32 (value : Int) : Int :=
  jsOr (jsOr (jsOr (jsShl (jsAnd value 0xFF) 24) (jsShl (jsAnd value 0xFF00) 8))
    (jsAnd (jsShrU value 8) 0xFF00)) (jsAnd (jsShrU value 24) 0xFF)

/-- The constant `epoch = moment('2001-01-01T00:00:00Z').unix()`. -/
def epoch : Int := 978307200

/-- Lowercase hexadecimal digit for a value `0..15`. -/
def hexDigit (n : Nat) : Char := ("0123456789abcdef").toList.getD n ('0')

/-- Digits of `n` in base 16, most significant first (fuel-driven; `fuel = n`
always suffices since `n / 16 < n` for `n > 0`). -/
def natToHexCore (fuel n : Nat) : List Char :=
  match fuel with
  | 0 => []
  | fuel + 1 => if n = 0 then [] else natToHexCore fuel (n / 16) ++ [hexDigit (n % 16)]

/-- JS `Number(n).toString(16)` for a natural number. -/
def natToHex (n : Nat) : String :=
  if n = 0 then ("0") else String.mk (natToHexCore n n)

/-- Function `numToHex` from MyHomeKitTypes.js: hex of `value >>> 0`, zero-padded to an
even number of digits, then - when `length` is truthy - the last `length`
characters of thirteen zeros prepended to it (`slice(-length)`). A missing
`length` argument is modelled as `0`. -/
def numToHex (value : Int) (length : Nat) : String :=
  let s := natToHex (toUint32 value)
  let s := if s.length % 2 ≠ 0 then ("0") ++ s else s
  if length ≠ 0 then (("0000000000000") ++ s).takeRight length else s

/-- Value of a hexadecimal character, `none` for non-hex characters. -/
def hexCharVal (c : Char) : Option Nat :=
  if ('0') ≤ c ∧ c ≤ ('9') then some (c.toNat - 48)
  else if ('a') ≤ c ∧ c ≤ ('f') then some (c.toNat - 87)
  else if ('A') ≤ c ∧ c ≤ ('F') then some (c.toNat - 55)
  else none

/-- The stripping step of `hexToBase64`: `value.replace(/[^0-9A-F]/ig, '')`. -/
def stripNonHex (s : String) : List Char :=
  s.toList.filter (fun c => (hexCharVal c).isSome)

/-- Node's `Buffer.from(hexChars, 'hex')`: consume the characters two at a
time; a trailing lone digit is dropped (Buffer truncates, it never throws). -/
def hexPairsToBytes : List Char → List Nat
  | c1 :: c2 :: rest =>
      ((hexCharVal c1).getD 0 * 16 + (hexCharVal c2).getD 0) :: hexPairsToBytes rest
  | _ => []

/-- The standard base64 alphabet. -/
def base64Chars : List Char :=
  ("ABCDEFGHIJKLMNOPQRSTUVWXYZabcdefghijklmnopqrstuvwxyz0123456789+/").toList

/-- Base64 digit for a 6-bit value. -/
def b64Digit (n : Nat) : Char := base64Chars.getD n ('A')

/-- Standard base64 encoding of a byte list (Node `buf.toString('base64')`). -/
def base64Encode : List Nat → String
  | [] => ("")
  | [b1] =>
      String.mk [b64Digit (b1 / 4), b64Digit (b1 % 4 * 16)] ++ ("==")
  | [b1, b2] =>
      String.mk [b64Digit (b1 / 4), b64Digit (b1 % 4 * 16 + b2 / 16),
        b64Digit (b2 % 16 * 4)] ++ ("=")
  | b1 :: b2 :: b3 :: rest =>
      String.mk [b64Digit (b1 / 4), b64Digit (b1 % 4 * 16 + b2 / 16),
        b64Digit (b2 % 16 * 4 + b3 / 64), b64Digit (b3 % 64)] ++ base64Encode rest

/-- Function `hexToBase64` from MyHomeKitTypes.js (for string input; the `TypeError`
guard for non-string input is outside the embedding's typed domain):
strip all non-hex characters, decode pairs of hex digits to bytes,
encode the bytes in base64. -/
def hexToBase64 (value : String) : String :=
  base64Encode (hexPairsToBytes (stripNonHex value))

/-- The 6-bit value of a base64 alphabet character, `none` otherwise
(Node's base64 decoder skips characters outside the alphabet, including
the `=` padding terminator for our purposes). -/
def b64Val (c : Char) : Option Nat :=
  if ('A') ≤ c ∧ c ≤ ('Z') then some (c.toNat - 65)
  else if ('a') ≤ c ∧ c ≤ ('z') then some (c.toNat - 71)
  else if ('0') ≤ c ∧ c ≤ ('9') then some (c.toNat + 4)
  else if c = ('+') then some 62
  else if c = ('/') then some 63
  else none

/-- Base64 decoding to bytes: groups of four 6-bit digits give three bytes;
a trailing group of two or three digits gives one or two bytes. -/
def base64DecodeCore : List Nat → List Nat
  | d1 :: d2 :: d3 :: d4 :: rest =>
      (d1 * 4 + d2 / 16) :: (d2 % 16 * 16 + d3 / 4) :: (d3 % 4 * 64 + d4) ::
        base64DecodeCore rest
  | [d1, d2] => [d1 * 4 + d2 / 16]
  | [d1, d2, d3] => [d1 * 4 + d2 / 16, d2 % 16 * 16 + d3 / 4]
  | _ => []

/-- Two lowercase hex digits of a byte. -/
def byteToHex (b : Nat) : List Char := [hexDigit (b / 16 % 16), hexDigit (b % 16)]

/-- Function `base64ToHex` from MyHomeKitTypes.js:
`Buffer.from(value, 'base64').toString('hex')`. -/
def base64ToHex (value : String) : String :=
  String.mk ((base64DecodeCore (value.toList.filterMap b64Val)).flatMap byteToHex)

/-- JS `parseInt(s, 16)` for the strings produced by `base64ToHex` (lowercase
hex): value of the longest hex-digit prefix, `none` (NaN) when it is empty. -/
def parseIntHex (s : String) : Option Nat :=
  match s.toList.takeWhile (fun c => (hexCharVal c).isSome) with
  | [] => none
  | ds => some (ds.foldl (fun acc c => acc * 16 + (hexCharVal c).getD 0) 0)

/-- JS `s.substring(a, b)`. -/
def jsSubstring (s : String) (a b : Nat) : String :=
  String.mk ((s.toList.drop a).take (b - a))

/-!  ## The `History` service delegate state

One slot of the sparse JS array `this._history`.  `undef` stands for an
index that was never written (JS `undefined`), `noValue` for the string
`'noValue'` placed at index 0 by the constructor, `mark t` for a synthetic
reference-time entry `{time: t, setRefTime: 1}`, and `data t p` for a real
entry `{time: t, ...}` whose sensor-specific fields are the payload `p`.
-/
inductive HistEntry (α : Type) where
  | undef
  | noValue
  | mark (time : Int)
  | data (time : Int) (payload : α)
deriving DecidableEq, Repr

/-- JS `e.setRefTime === 1` for a history slot.  Only the synthetic marker
entries carry `setRefTime: 1`; on the other populated slots the property is
absent (`undefined === 1` is false).  The `undef` case is unreachable in the
runs considered here (the source would throw on it). -/
def setRefTimeIsOne {α : Type} : HistEntry α → Bool
  | .mark _ => true
  | _ => false

/-- Capacity `this._memorySize = 4032`, set in the constructor and never reassigned
(the persisted snapshot does not include it). -/
def memorySize : Nat := 4032

/-- The instance state of a `History` service delegate, over the type `α` of
sensor-specific entry payloads.  `initialTime` is `none` while
`this._initialTime` is still `undefined`.  `loading` models the
load-in-progress flag of the spec (see `addEntry`). -/
structure HistoryState (α : Type) where
  firstEntry : Nat
  lastEntry : Nat
  history : Int → HistEntry α
  usedMemory : Nat
  currentEntry : Int
  transfer : Bool
  setTime : Bool
  restarted : Bool
  refTime : Int
  initialTime : Option Int
  loading : Bool
  historyStatus : String

/-- Pointwise update of the sparse history array. -/
def fupd {α : Type} (h : Int → HistEntry α) (i : Int) (e : HistEntry α) :
    Int → HistEntry α :=
  fun j => if j = i then e else h j

/-- State right after the constructor ran: bookkeeping reset and `_load()`
issued, so the load-in-progress flag is still set. -/
def constructedState {α : Type} : HistoryState α where
  firstEntry := 0
  lastEntry := 0
  history := fun i => if i = 0 then HistEntry.noValue else HistEntry.undef
  usedMemory := 0
  currentEntry := 1
  transfer := false
  setTime := true
  restarted := true
  refTime := 0
  initialTime := none
  loading := true
  historyStatus := ("")

/-- The empty store: constructed, with the load completed and no persisted
file found (the load callback then leaves every field unchanged). -/
def initialState {α : Type} : HistoryState α :=
  { constructedState with loading := false }

/-- The history-status payload recomputed at the end of `_addEntry`
(hex form, before `hexToBase64`):
`'%s00000000%s%s%s%s%s000000000101'` with the time delta, the reference
time, the adapter fingerprint, used memory (+1 while filling), the memory
size and the first entry (+1 once full). -/
def statusHex (entryTime refTime : Int) (fp : String)
    (usedMemory firstEntry : Nat) : String :=
  let usedMemoryOffset : Nat := if usedMemory < memorySize then 1 else 0
  let firstEntryOffset : Nat := if usedMemory < memorySize then 0 else 1
  numToHex (swap32 (entryTime - refTime - epoch)) 8 ++ ("00000000") ++
    numToHex (swap32 refTime) 8 ++ fp ++
    numToHex (swap16 ((usedMemory + usedMemoryOffset : Nat) : Int)) 4 ++
    numToHex (swap16 ((memorySize : Nat) : Int)) 4 ++
    numToHex (swap32 ((firstEntry + firstEntryOffset : Nat) : Int)) 8 ++
    ("000000000101")

/-- Method `History.prototype._addEntry(now)`, for an adapter with fingerprint `fp`
whose `this._entry` currently carries the payload `p`.  When the
load-in-progress flag is set the call leaves the state unchanged (the source
schedules a retry via `setTimeout(.., 100)` and returns; the retry is
modelled by the scheduler below).  Otherwise:
ring bookkeeping (filling / full, with the one-shot post-restart marker),
the first-ever reference-time marker, the entry write, and the recomputed
history-status characteristic value. -/
def addEntry {α : Type} (fp : String) (now : Int) (p : α)
    (s : HistoryState α) : HistoryState α :=
  if s.loading then s
  else
    let s1 :=
      if s.usedMemory < memorySize then
        { s with usedMemory := s.usedMemory + 1, firstEntry := 0,
                 lastEntry := s.usedMemory + 1 }
      else
        let sa := { s with firstEntry := s.firstEntry + 1,
                           lastEntry := s.firstEntry + 1 + s.usedMemory }
        if sa.restarted then
          let sb := { sa with
            history := fupd sa.history ((sa.lastEntry % memorySize : Nat) : Int)
              (HistEntry.mark now) }
          { sb with firstEntry := sb.firstEntry + 1,
                    lastEntry := sb.firstEntry + 1 + sb.usedMemory,
                    restarted := false }
        else sa
    let s2 :=
      if s1.refTime = 0 then
        { s1 with refTime := now - epoch,
                  history := fupd s1.history ((s1.lastEntry : Nat) : Int)
                    (HistEntry.mark now),
                  initialTime := some now,
                  lastEntry := s1.lastEntry + 1,
                  usedMemory := s1.usedMemory + 1 }
      else s1
    let s3 := { s2 with
      history := fupd s2.history ((s2.lastEntry % memorySize : Nat) : Int)
        (HistEntry.data now p) }
    { s3 with historyStatus :=
        hexToBase64 (statusHex now s3.refTime fp s3.usedMemory s3.firstEntry) }

/-- The entry index decoded from a write to the history-request
characteristic: `swap32(parseInt(base64ToHex(value).substring(4, 12), 16))`.
`parseInt` yielding NaN is mapped to `0` (every 32-bit operation inside
`swap32` coerces NaN to 0, so `swap32(NaN) = swap32(0) = 0`). -/
def requestEntry (value : String) : Int :=
  swap32 (match parseIntHex (jsSubstring (base64ToHex value) 4 12) with
    | none => 0
    | some n => (n : Int))

/-- Method `History.prototype._onSetHistoryRequest(value)`. -/
def onSetHistoryRequest {α : Type} (value : String) (s : HistoryState α) :
    HistoryState α :=
  let entry := requestEntry value
  if entry ≠ 0 then { s with currentEntry := entry, transfer := true }
  else { s with currentEntry := 1, transfer := true }

/-- The fixed-layout set-reference-time record emitted by `_onGetEntries`:
`' 15%s 0100 0000 81%s0000 0000 00 0000'` with the swapped current entry
index and reference time. -/
def setTimeRecord (currentEntry refTime : Int) : String :=
  (" 15") ++ numToHex (swap32 currentEntry) 8 ++ (" 0100 0000 81") ++
    numToHex (swap32 refTime) 8 ++ ("0000 0000 00 0000")

/-- The body of the `for (let i = 0; i < 11; i++)` loop of `_onGetEntries`,
parameterised by the adapter's `_entryStream` (which reads
`this._currentEntry` and `this._refTime`, hence the two `Int` arguments). -/
def onGetEntriesLoop {α : Type} (es : Int → Int → HistEntry α → String) :
    Nat → HistoryState α → String → HistoryState α × String
  | 0, s, acc => (s, acc)
  | Nat.succ i, s, acc =>
      let address := Int.tmod s.currentEntry ((memorySize : Nat) : Int)
      let isRef := setRefTimeIsOne (s.history address) || s.setTime ||
        decide (s.currentEntry = ((s.firstEntry : Nat) : Int) + 1)
      let record := if isRef then setTimeRecord s.currentEntry s.refTime
        else es s.currentEntry s.refTime (s.history address)
      let s := if isRef then { s with setTime := false } else s
      let s := { s with currentEntry := s.currentEntry + 1 }
      let acc := acc ++ record
      if s.currentEntry > ((s.lastEntry : Nat) : Int) then (s, acc)
      else onGetEntriesLoop es i s acc

/-- Method `History.prototype._onGetEntries(callback)`.  The source always invokes
`callback(null, data)` - never an error - so the embedding returns the new
state and the data string. -/
def onGetEntries {α : Type} (es : Int → Int → HistEntry α → String)
    (s : HistoryState α) : HistoryState α × String :=
  if s.currentEntry > ((s.lastEntry : Nat) : Int) || !s.transfer then
    ({ s with transfer := false }, hexToBase64 ("00"))
  else
    let r := onGetEntriesLoop es 11 s ("")
    (r.1, hexToBase64 r.2)

/-- Getter `Contact.prototype._fingerPrint`. -/
def contactFingerPrint : String := ("01 0601")

/-- A sequence of `_addEntry` calls, each given as (time, payload). -/
def runAdds {α : Type} (fp : String) (l : List (Int × α)) (s : HistoryState α) :
    HistoryState α :=
  l.foldl (fun s e => addEntry fp e.1 e.2 s) s

/-- The state before the `n`-th call of the sequence `l` (0-based). -/
def stepState {α : Type} (fp : String) (l : List (Int × α))
    (s : HistoryState α) (n : Nat) : HistoryState α :=
  runAdds fp (l.take n) s

/-- The ring-buffer bookkeeping invariant of the claim: the used count never
exceeds the capacity and `lastIndex = firstIndex + usedCount`. -/
def ringInv {α : Type} (s : HistoryState α) : Prop :=
  s.usedMemory ≤ memorySize ∧ s.lastEntry = s.firstEntry + s.usedMemory

/-- Auxiliary invariant: `ringInv` together with a set reference time and no
load in flight.  It is established by the first append (when its time is not
the device epoch) and preserved by every later append. -/
def goodState {α : Type} (s : HistoryState α) : Prop :=
  ringInv s ∧ s.refTime ≠ 0 ∧ s.loading = false

/-- An `_addEntry` call on this state runs the one-shot post-restart marker
insertion (lines 746-754): no load in flight, buffer full, `_restarted`
still set. -/
def fires {α : Type} (s : HistoryState α) : Prop :=
  s.loading = false ∧ memorySize ≤ s.usedMemory ∧ s.restarted = true

instance {α : Type} (s : HistoryState α) : Decidable (fires s) := by
  unfold fires; infer_instance

/-- A sequence of `_addEntry` calls whose entry times all equal the device
epoch, starting from the empty store. -/
def epochRun : Nat → HistoryState Unit
  | 0 => initialState
  | n + 1 => addEntry ("") epoch () (epochRun n)

/-- A sequence of `_addEntry` calls at time `1`, starting from the empty
store (used to reach a wrapped buffer with `firstEntry > 0`). -/
def fillRun : Nat → HistoryState Unit
  | 0 => initialState
  | n + 1 => addEntry ("") 1 () (fillRun n)

/-!  ## The Contact delegate's `didSet` handler

The `contactDelegate.on('didSet', ...)` callback of the `Contact`
constructor works on JS numbers that can be NaN, so its values are modelled
as `Option Int` with `none` for NaN. -/

/-- JS subtraction on possibly-NaN numbers. -/
def jsNumSub : Option Int → Option Int → Option Int
  | some a, some b => some (a - b)
  | _, _ => none

/-- JS addition on possibly-NaN numbers. -/
def jsNumAdd : Option Int → Option Int → Option Int
  | some a, some b => some (a + b)
  | _, _ => none

/-- Value of `moment.unix()` called with no argument, as in the Contact handler
(`const now = moment.unix()`): `moment.unix(input)` computes
`moment(input * 1000)`; with `input` undefined this is `moment(NaN)`, an
invalid moment whose numeric value is NaN.  (The base class uses
`moment().unix()`, the current Unix time, instead.) -/
def momentUnixNoArg : Option Int := none

/-- The slice of a `Contact` delegate's state touched by its `didSet`
handler.  `initialTime` mirrors `this._initialTime`, `entryStatus` mirrors
`this._entry.status`. -/
structure ContactState where
  timesOpened : Option Int
  lastActivation : Option Int
  initialTime : Option Int
  entryStatus : Int
deriving DecidableEq, Repr

/-- Result of the handler: the new delegate state plus the arguments of the
`this._addEntry(now)` call it makes. -/
structure ContactDidSetCall where
  state : ContactState
  addEntryNow : Option Int
  addEntryStatus : Int
deriving DecidableEq, Repr

/-- The `contactDelegate.on('didSet', (value) => ...)` handler of the
`Contact` constructor (lines 1038-1044):
`const now = moment.unix()`; `timesOpenedDelegate.value += value`;
`lastActivationDelegate.value = now - this._initialTime`;
`this._entry.status = value`; `this._addEntry(now)`. -/
def contactOnDidSet (value : Int) (s : ContactState) : ContactDidSetCall :=
  let now := momentUnixNoArg
  { state := { s with
      timesOpened := jsNumAdd s.timesOpened (some value),
      lastActivation := jsNumSub now s.initialTime,
      entryStatus := value },
    addEntryNow := now,
    addEntryStatus := value }

/-!  ## Deferred `_addEntry` calls and the load in flight

Modelled from the spec: the `Delegate` base class of this repository
(`lib/Delegate.js`, not under the provided sources) sits between the
`loading` property read in `_addEntry` and the `_loading` flag assigned in
`_load`; per the spec they are one load-in-progress flag, set while the
persisted-state read is outstanding.  `setTimeout` semantics are modelled as
a deterministic scheduler that fires the event with the earliest due time
first (FIFO among equal due times, as Node's timer queue does); the load
completion is one such event. -/

/-- A scheduler configuration: the delegate state plus the pending retry
timers (due time in ms, the `now` argument, the payload). -/
structure SchedState (α : Type) where
  hist : HistoryState α
  timers : List (Nat × Int × α)

/-- One invocation of `_addEntry(now)` at wall time `t`: while the load is
outstanding it only schedules a retry 100 ms later (`setTimeout(..., 100)`)
and leaves the store untouched; otherwise it appends. -/
def handleAddEntry {α : Type} (fp : String) (now : Int) (p : α) (t : Nat)
    (s : SchedState α) : SchedState α :=
  if s.hist.loading then { s with timers := s.timers ++ [(t + 100, now, p)] }
  else { s with hist := addEntry fp now p s.hist }

/-- Remove the first timer with the minimal due time. -/
def popMinTimer {α : Type} :
    List (Nat × Int × α) → Option ((Nat × Int × α) × List (Nat × Int × α))
  | [] => none
  | t :: rest =>
    match popMinTimer rest with
    | none => some (t, [])
    | some (t2, rest2) =>
        if t.1 ≤ t2.1 then some (t, rest) else some (t2, t :: rest2)

/-- Whether `a` is due no later than the (optional) other event. -/
def leOpt (a : Nat) : Option Nat → Bool
  | none => true
  | some b => a ≤ b

/-- Deterministic event-loop run: `calls` are the external `_addEntry`
invocations (wall time, `now` argument, payload) in time order, `loadT` the
time at which the `fs.readFile` callback of `_load` clears the loading flag
(the no-file path, which restores nothing).  At each step the earliest
event fires: the load callback, a pending retry timer, or the next external
call (ties, absent from the scenarios below, resolve in that order). -/
def runSched {α : Type} (fp : String) :
    Nat → List (Nat × Int × α) → Option Nat → SchedState α → SchedState α
  | 0, _, _, s => s
  | Nat.succ fuel, calls, loadT, s =>
      let tT := Option.map (fun x => x.1.1) (popMinTimer s.timers)
      let tC := Option.map Prod.fst calls.head?
      match loadT with
      | some tl =>
          if leOpt tl tT && leOpt tl tC then
            runSched fp fuel calls none
              { s with hist := { s.hist with loading := false } }
          else
            match popMinTimer s.timers with
            | some (tm, rest) =>
                if leOpt tm.1 tC then
                  runSched fp fuel calls (some tl)
                    (handleAddEntry fp tm.2.1 tm.2.2 tm.1 { s with timers := rest })
                else
                  match calls with
                  | [] => s
                  | c :: more =>
                      runSched fp fuel more (some tl)
                        (handleAddEntry fp c.2.1 c.2.2 c.1 s)
            | none =>
                match calls with
                | [] => s
                | c :: more =>
                    runSched fp fuel more (some tl)
                      (handleAddEntry fp c.2.1 c.2.2 c.1 s)
      | none =>
          match popMinTimer s.timers with
          | some (tm, rest) =>
              if leOpt tm.1 tC then
                runSched fp fuel calls none
                  (handleAddEntry fp tm.2.1 tm.2.2 tm.1 { s with timers := rest })
              else
                match calls with
                | [] => s
                | c :: more =>
                    runSched fp fuel more none
                      (handleAddEntry fp c.2.1 c.2.2 c.1 s)
          | none =>
              match calls with
              | [] => s
              | c :: more =>
                  runSched fp fuel more none
                    (handleAddEntry fp c.2.1 c.2.2 c.1 s)

/-- Two `_addEntry` calls arriving while the load is outstanding: at wall
times 0 and 50 ms, with entry times 2000000000 and 2000000001 and payloads
1 and 2. -/
def c6calls : List (Nat × Int × Nat) :=
  [(0, 2000000000, 1), (50, 2000000001, 2)]

/-- The run of those two calls against a load that completes at 120 ms,
from the freshly constructed (still loading) state with no pending timers. -/
def c6run : SchedState Nat :=
  runSched ("") 12 c6calls (some 120) ⟨constructedState, []⟩

/-- A concrete reachable-shaped full store (buffer at capacity, reference
time set, restart flag still pending), used to instantiate witnesses. -/
def fullTestState : HistoryState Nat :=
  { (initialState : HistoryState Nat) with
    usedMemory := 4032
    lastEntry := 4032
    refTime := 5
    history := fun _ => HistEntry.data 0 0 }

/-- Byte permutation of bit indices realised by `swap32` (proof support). -/
def byteMap (i : Nat) : Nat :=
  if i < 8 then i + 24 else if i < 16 then i + 8
  else if i < 24 then i - 8 else i - 24

/-!  ## Lemmas about one `_addEntry` step -/

section AddEntryLemmas

variable {α : Type}

theorem addEntry_of_loading (fp : String) (now : Int) (p : α)
    (s : HistoryState α) (h : s.loading = true) : addEntry fp now p s = s := by
  unfold addEntry
  rw [if_pos h]

theorem addEntry_loading (fp : String) (now : Int) (p : α)
    (s : HistoryState α) : (addEntry fp now p s).loading = s.loading := by
  simp only [addEntry]
  split_ifs <;> rfl

theorem addEntry_fill_ref0 (fp : String) (now : Int) (p : α)
    (s : HistoryState α) (hl : s.loading = false)
    (hu : s.usedMemory < memorySize) (hr : s.refTime = 0) :
    (addEntry fp now p s).usedMemory = s.usedMemory + 2 ∧
    (addEntry fp now p s).firstEntry = 0 ∧
    (addEntry fp now p s).lastEntry = s.usedMemory + 2 ∧
    (addEntry fp now p s).refTime = now - epoch ∧
    (addEntry fp now p s).restarted = s.restarted ∧
    (addEntry fp now p s).loading = false ∧
    (addEntry fp now p s).initialTime = some now ∧
    (addEntry fp now p s).history =
      fupd (fupd s.history ((s.usedMemory + 1 : Nat) : Int) (HistEntry.mark now))
        (((s.usedMemory + 2) % memorySize : Nat) : Int) (HistEntry.data now p) := by
  simp only [addEntry, hl, hr, if_pos hu]
  simp
  have h2 : (s.usedMemory : Int) + 1 + 1 = (s.usedMemory : Int) + 2 := by ring
  rw [h2]

theorem addEntry_fill_refNe (fp : String) (now : Int) (p : α)
    (s : HistoryState α) (hl : s.loading = false)
    (hu : s.usedMemory < memorySize) (hr : s.refTime ≠ 0) :
    (addEntry fp now p s).usedMemory = s.usedMemory + 1 ∧
    (addEntry fp now p s).firstEntry = 0 ∧
    (addEntry fp now p s).lastEntry = s.usedMemory + 1 ∧
    (addEntry fp now p s).refTime = s.refTime ∧
    (addEntry fp now p s).restarted = s.restarted ∧
    (addEntry fp now p s).loading = false ∧
    (addEntry fp now p s).initialTime = s.initialTime ∧
    (addEntry fp now p s).history =
      fupd s.history (((s.usedMemory + 1) % memorySize : Nat) : Int)
        (HistEntry.data now p) := by
  simp only [addEntry, hl, hr, if_pos hu, if_neg hr]
  simp

theorem addEntry_full_restarted (fp : String) (now : Int) (p : α)
    (s : HistoryState α) (hl : s.loading = false)
    (hu : ¬ s.usedMemory < memorySize) (hres : s.restarted = true)
    (hr : s.refTime ≠ 0) :
    (addEntry fp now p s).usedMemory = s.usedMemory ∧
    (addEntry fp now p s).firstEntry = s.firstEntry + 2 ∧
    (addEntry fp now p s).lastEntry = s.firstEntry + 2 + s.usedMemory ∧
    (addEntry fp now p s).refTime = s.refTime ∧
    (addEntry fp now p s).restarted = false ∧
    (addEntry fp now p s).loading = false := by
  simp only [addEntry, hl, hr, if_neg hu, hres, if_neg hr]
  simp [hr]

theorem addEntry_full_notRestarted (fp : String) (now : Int) (p : α)
    (s : HistoryState α) (hl : s.loading = false)
    (hu : ¬ s.usedMemory < memorySize) (hres : s.restarted = false)
    (hr : s.refTime ≠ 0) :
    (addEntry fp now p s).usedMemory = s.usedMemory ∧
    (addEntry fp now p s).firstEntry = s.firstEntry + 1 ∧
    (addEntry fp now p s).lastEntry = s.firstEntry + 1 + s.usedMemory ∧
    (addEntry fp now p s).refTime = s.refTime ∧
    (addEntry fp now p s).restarted = false ∧
    (addEntry fp now p s).loading = false := by
  simp only [addEntry, hl, hr, if_neg hu, hres, if_neg hr]
  simp [hr]

theorem addEntry_full_restarted_ref0 (fp : String) (now : Int) (p : α)
    (s : HistoryState α) (hl : s.loading = false)
    (hu : ¬ s.usedMemory < memorySize) (hres : s.restarted = true)
    (hr : s.refTime = 0) :
    (addEntry fp now p s).usedMemory = s.usedMemory + 1 ∧
    (addEntry fp now p s).firstEntry = s.firstEntry + 2 ∧
    (addEntry fp now p s).lastEntry = s.firstEntry + 2 + s.usedMemory + 1 ∧
    (addEntry fp now p s).refTime = now - epoch ∧
    (addEntry fp now p s).restarted = false ∧
    (addEntry fp now p s).loading = false := by
  simp only [addEntry, hl, hr, if_neg hu, hres]
  simp

theorem addEntry_restarted_of_not_fires (fp : String) (now : Int) (p : α)
    (s : HistoryState α) (h : ¬ fires s) :
    (addEntry fp now p s).restarted = s.restarted := by
  unfold fires at h
  by_cases hl : s.loading = true
  · rw [addEntry_of_loading fp now p s hl]
  · rw [Bool.not_eq_true] at hl
    by_cases hu : s.usedMemory < memorySize
    · simp only [addEntry, hl, if_pos hu]
      split_ifs <;> rfl
    · have hres : s.restarted = false := by
        by_contra hcon
        rw [Bool.not_eq_false] at hcon
        exact h ⟨hl, by omega, hcon⟩
      simp only [addEntry, hl, if_neg hu, hres]
      simp only [Bool.false_eq_true, if_false]
      split_ifs <;> simp [hres]

theorem addEntry_restarted_false (fp : String) (now : Int) (p : α)
    (s : HistoryState α) (h : s.restarted = false) :
    (addEntry fp now p s).restarted = false := by
  rw [addEntry_restarted_of_not_fires fp now p s]
  · exact h
  · intro hf
    rw [hf.2.2] at h
    exact Bool.noConfusion h

theorem addEntry_restarted_false_of_fires (fp : String) (now : Int) (p : α)
    (s : HistoryState α) (h : fires s) :
    (addEntry fp now p s).restarted = false := by
  rcases h with ⟨hl, hu, hres⟩
  by_cases hr : s.refTime = 0
  · exact (addEntry_full_restarted_ref0 fp now p s hl (by omega) hres hr).2.2.2.2.1
  · exact (addEntry_full_restarted fp now p s hl (by omega) hres hr).2.2.2.2.1

theorem addEntry_full_notRestarted_ref0 (fp : String) (now : Int) (p : α)
    (s : HistoryState α) (hl : s.loading = false)
    (hu : ¬ s.usedMemory < memorySize) (hres : s.restarted = false)
    (hr : s.refTime = 0) :
    (addEntry fp now p s).usedMemory = s.usedMemory + 1 ∧
    (addEntry fp now p s).firstEntry = s.firstEntry + 1 ∧
    (addEntry fp now p s).lastEntry = s.firstEntry + 1 + s.usedMemory + 1 ∧
    (addEntry fp now p s).loading = false := by
  simp only [addEntry, hl, hr, if_neg hu, hres]
  simp

/-- After any one append on a state with no load in flight, the equation
`lastEntry = firstEntry + usedMemory` holds - with no assumption on the
input state, since every branch of `_addEntry` re-establishes it. -/
theorem addEntry_ringEq (fp : String) (now : Int) (p : α)
    (s : HistoryState α) (hl : s.loading = false) :
    (addEntry fp now p s).lastEntry =
      (addEntry fp now p s).firstEntry + (addEntry fp now p s).usedMemory := by
  by_cases hu : s.usedMemory < memorySize
  · by_cases hr : s.refTime = 0
    · obtain ⟨h1, h2, h3, _⟩ := addEntry_fill_ref0 fp now p s hl hu hr
      omega
    · obtain ⟨h1, h2, h3, _⟩ := addEntry_fill_refNe fp now p s hl hu hr
      omega
  · by_cases hres : s.restarted = true
    · by_cases hr : s.refTime = 0
      · obtain ⟨h1, h2, h3, _⟩ := addEntry_full_restarted_ref0 fp now p s hl hu hres hr
        omega
      · obtain ⟨h1, h2, h3, _⟩ := addEntry_full_restarted fp now p s hl hu hres hr
        omega
    · rw [Bool.not_eq_true] at hres
      by_cases hr : s.refTime = 0
      · obtain ⟨h1, h2, h3, _⟩ := addEntry_full_notRestarted_ref0 fp now p s hl hu hres hr
        omega
      · obtain ⟨h1, h2, h3, _⟩ := addEntry_full_notRestarted fp now p s hl hu hres hr
        omega

theorem goodState_addEntry (fp : String) (now : Int) (p : α)
    (s : HistoryState α) (h : goodState s) : goodState (addEntry fp now p s) := by
  obtain ⟨⟨hcap, _⟩, hr, hl⟩ := h
  refine ⟨⟨?_, addEntry_ringEq fp now p s hl⟩, ?_, ?_⟩
  · by_cases hu : s.usedMemory < memorySize
    · rw [(addEntry_fill_refNe fp now p s hl hu hr).1]
      omega
    · by_cases hres : s.restarted = true
      · rw [(addEntry_full_restarted fp now p s hl hu hres hr).1]
        omega
      · rw [Bool.not_eq_true] at hres
        rw [(addEntry_full_notRestarted fp now p s hl hu hres hr).1]
        omega
  · by_cases hu : s.usedMemory < memorySize
    · rw [(addEntry_fill_refNe fp now p s hl hu hr).2.2.2.1]
      exact hr
    · by_cases hres : s.restarted = true
      · rw [(addEntry_full_restarted fp now p s hl hu hres hr).2.2.2.1]
        exact hr
      · rw [Bool.not_eq_true] at hres
        rw [(addEntry_full_notRestarted fp now p s hl hu hres hr).2.2.2.1]
        exact hr
  · rw [addEntry_loading]
    exact hl

end AddEntryLemmas

/-!  ## Lemmas about sequences of appends -/

section RunLemmas

variable {α : Type}

theorem runAdds_nil (fp : String) (s : HistoryState α) : runAdds fp [] s = s := rfl

theorem runAdds_cons (fp : String) (e : Int × α) (l : List (Int × α))
    (s : HistoryState α) :
    runAdds fp (e :: l) s = runAdds fp l (addEntry fp e.1 e.2 s) := rfl

theorem runAdds_append (fp : String) (l1 l2 : List (Int × α))
    (s : HistoryState α) :
    runAdds fp (l1 ++ l2) s = runAdds fp l2 (runAdds fp l1 s) := by
  unfold runAdds
  exact List.foldl_append _ _ _ _

theorem goodState_runAdds (fp : String) (l : List (Int × α))
    (s : HistoryState α) (h : goodState s) : goodState (runAdds fp l s) := by
  induction l generalizing s with
  | nil => exact h
  | cons e l ih =>
      rw [runAdds_cons]
      exact ih _ (goodState_addEntry fp e.1 e.2 s h)

theorem runAdds_loading (fp : String) (l : List (Int × α))
    (s : HistoryState α) : (runAdds fp l s).loading = s.loading := by
  induction l generalizing s with
  | nil => rfl
  | cons e l ih =>
      rw [runAdds_cons, ih, addEntry_loading]

theorem ringEq_runAdds (fp : String) (l : List (Int × α))
    (s : HistoryState α) (hl : s.loading = false)
    (h : s.lastEntry = s.firstEntry + s.usedMemory) :
    (runAdds fp l s).lastEntry =
      (runAdds fp l s).firstEntry + (runAdds fp l s).usedMemory := by
  induction l generalizing s with
  | nil => exact h
  | cons e l ih =>
      rw [runAdds_cons]
      refine ih _ ?_ (addEntry_ringEq fp e.1 e.2 s hl)
      rw [addEntry_loading]
      exact hl

theorem runAdds_restarted_false (fp : String) (l : List (Int × α))
    (s : HistoryState α) (h : s.restarted = false) :
    (runAdds fp l s).restarted = false := by
  induction l generalizing s with
  | nil => exact h
  | cons e l ih =>
      rw [runAdds_cons]
      exact ih _ (addEntry_restarted_false fp e.1 e.2 s h)

end RunLemmas

section InitialStateLemmas

variable {α : Type}

theorem memorySize_eq : memorySize = 4032 := rfl

theorem initialState_usedMemory : (initialState (α := α)).usedMemory = 0 := rfl

theorem initialState_firstEntry : (initialState (α := α)).firstEntry = 0 := rfl

theorem initialState_lastEntry : (initialState (α := α)).lastEntry = 0 := rfl

theorem initialState_refTime : (initialState (α := α)).refTime = 0 := rfl

theorem initialState_restarted : (initialState (α := α)).restarted = true := rfl

theorem initialState_loading : (initialState (α := α)).loading = false := rfl

theorem initialState_history :
    (initialState (α := α)).history =
      fun i => if i = 0 then HistEntry.noValue else HistEntry.undef := rfl

end InitialStateLemmas

/-!  ## C1: ring-buffer bookkeeping invariants -/

/-- Closed form of the all-epoch run while the buffer is still filling:
each append takes the `usedMemory < memorySize` branch and then, since the
reference time stays `0` (`epoch - epoch = 0`), the reference-time branch as
well, so the used count grows by two per call. -/
theorem epochRun_bookkeeping : ∀ n, n ≤ 2016 →
    (epochRun n).usedMemory = 2 * n ∧ (epochRun n).firstEntry = 0 ∧
    (epochRun n).lastEntry = 2 * n ∧ (epochRun n).refTime = 0 ∧
    (epochRun n).restarted = true ∧ (epochRun n).loading = false := by
  intro n
  induction n with
  | zero => exact fun _ => ⟨rfl, rfl, rfl, rfl, rfl, rfl⟩
  | succ k ih =>
      intro hk
      obtain ⟨h1, h2, h3, h4, h5, h6⟩ := ih (by omega)
      have hfill := addEntry_fill_ref0 ("") epoch () (epochRun k) h6
        (by rw [h1]; unfold memorySize; omega) h4
      have hstep : epochRun (k + 1) = addEntry ("") epoch () (epochRun k) := rfl
      rw [hstep]
      refine ⟨?_, hfill.2.1, ?_, ?_, ?_, hfill.2.2.2.2.2.1⟩
      · rw [hfill.1, h1]; ring
      · rw [hfill.2.2.1, h1]; ring
      · rw [hfill.2.2.2.1]; ring
      · rw [hfill.2.2.2.2.1]; exact h5

/-- C1, counterexample: 2017 `addEntry` calls from the empty store, all with
entry time equal to the device epoch, leave `usedMemory = 4033 > 4032`: the
reference time is recomputed as `0` on every call, so the reference-time
branch keeps firing and `usedMemory` grows by two per call; on the 2017-th
call the buffer is full and the branch pushes `usedMemory` past the
capacity.  This refutes the claim as stated (for every sequence of
`addEntry` calls, `usedCount ≤ capacity`). -/
theorem claim1_counterexample :
    (epochRun 2017).usedMemory = 4033 ∧
      ¬ (epochRun 2017).usedMemory ≤ memorySize := by
  obtain ⟨h1, h2, h3, h4, h5, h6⟩ := epochRun_bookkeeping 2016 (by omega)
  have hfull := addEntry_full_restarted_ref0 ("") epoch () (epochRun 2016) h6
    (by rw [h1]; unfold memorySize; omega) h5 h4
  have hstep : epochRun 2017 = addEntry ("") epoch () (epochRun 2016) := rfl
  have hused : (epochRun 2017).usedMemory = 4033 := by
    rw [hstep, hfull.1, h1]
  refine ⟨hused, ?_⟩
  rw [hused]
  unfold memorySize
  omega

/-- C1 (amended): starting from the empty store, after the first `addEntry`
call and after every later one, `lastIndex - firstIndex = usedCount` holds
unconditionally, and `usedCount ≤ capacity (4032)` holds provided the first
entry's time is not the device epoch (so that the reference time is set to a
nonzero value; the all-epoch sequence of `claim1_counterexample` is the only
way to escape this).  The state after the `n`-th subsequent call is
`runAdds fp (l.take n) (addEntry fp t p initialState)`. -/
theorem claim1_ring_invariants :
    (∀ (α : Type) (fp : String) (t : Int) (p : α) (l : List (Int × α)) (n : Nat),
        t ≠ epoch →
        ringInv (runAdds fp (l.take n) (addEntry fp t p initialState))) ∧
    (∀ (α : Type) (fp : String) (t : Int) (p : α) (l : List (Int × α)) (n : Nat),
        (runAdds fp (l.take n) (addEntry fp t p initialState)).lastEntry =
          (runAdds fp (l.take n) (addEntry fp t p initialState)).firstEntry +
            (runAdds fp (l.take n) (addEntry fp t p initialState)).usedMemory) := by
  constructor
  · intro α fp t p l n ht
    have hfill := addEntry_fill_ref0 fp t p (initialState (α := α)) rfl
      (by rw [initialState_usedMemory, memorySize_eq]; omega) rfl
    rw [initialState_usedMemory] at hfill
    have hgood : goodState (addEntry fp t p (initialState (α := α))) := by
      refine ⟨⟨?_, ?_⟩, ?_, hfill.2.2.2.2.2.1⟩
      · rw [hfill.1, memorySize_eq]
        omega
      · rw [hfill.2.1, hfill.2.2.1, hfill.1]
      · rw [hfill.2.2.2.1]
        exact sub_ne_zero_of_ne ht
    exact (goodState_runAdds fp (l.take n) _ hgood).1
  · intro α fp t p l n
    refine ringEq_runAdds fp (l.take n) _ ?_ ?_
    · rw [addEntry_loading]
      rfl
    · exact addEntry_ringEq fp t p _ rfl

/-- Witness for `claim1_ring_invariants` at a concrete input. -/
theorem claim1_ring_invariants_witness :
    (1 : Int) ≠ epoch ∧
      ringInv (runAdds ("") (([] : List (Int × Nat)).take 0)
        (addEntry ("") 1 (0 : Nat) initialState)) ∧
      (runAdds ("") (([] : List (Int × Nat)).take 0)
          (addEntry ("") 1 (0 : Nat) initialState)).lastEntry =
        (runAdds ("") (([] : List (Int × Nat)).take 0)
            (addEntry ("") 1 (0 : Nat) initialState)).firstEntry +
          (runAdds ("") (([] : List (Int × Nat)).take 0)
              (addEntry ("") 1 (0 : Nat) initialState)).usedMemory :=
  ⟨by decide,
    claim1_ring_invariants.1 Nat ("") 1 0 [] 0 (by decide),
    claim1_ring_invariants.2 Nat ("") 1 0 [] 0⟩

/-!  ## C2: the first-ever append sets the reference time -/

/-- C2: on the first `addEntry` ever performed (empty store, reference time
not yet set), the store sets `refTime = t - epoch`, records
`initialTime = t`, writes the synthetic marker `{time: t, setRefTime: 1}` at
logical index 1 and the real entry at logical index 2, so the marker sits
strictly before the real entry. -/
theorem claim2_first_addEntry (α : Type) (fp : String) (t : Int) (p : α) :
    (addEntry fp t p (initialState (α := α))).refTime = t - epoch ∧
    (addEntry fp t p (initialState (α := α))).initialTime = some t ∧
    (addEntry fp t p (initialState (α := α))).history 1 = HistEntry.mark t ∧
    (addEntry fp t p (initialState (α := α))).history 2 = HistEntry.data t p ∧
    (1 : Int) < 2 := by
  have hfill := addEntry_fill_ref0 fp t p (initialState (α := α)) rfl
    (by rw [initialState_usedMemory, memorySize_eq]; omega) rfl
  rw [initialState_usedMemory] at hfill
  refine ⟨hfill.2.2.2.1, hfill.2.2.2.2.2.2.1, ?_, ?_, by omega⟩
  · rw [hfill.2.2.2.2.2.2.2]
    rw [memorySize_eq]
    unfold fupd
    norm_num
  · rw [hfill.2.2.2.2.2.2.2]
    rw [memorySize_eq]
    unfold fupd
    norm_num

/-!  ## C5: the post-restart marker is inserted at most once -/

section StepStateLemmas

variable {α : Type}

theorem stepState_zero (fp : String) (l : List (Int × α)) (s0 : HistoryState α) :
    stepState fp l s0 0 = s0 := rfl

theorem stepState_succ_of_lt (fp : String) (l : List (Int × α))
    (s0 : HistoryState α) (i : Nat) (h : i < l.length) :
    stepState fp l s0 (i + 1) =
      addEntry fp (l[i].1) (l[i].2) (stepState fp l s0 i) := by
  unfold stepState
  rw [List.take_succ, runAdds_append, List.getElem?_eq_getElem h]
  rfl

theorem stepState_add (fp : String) (l : List (Int × α))
    (s0 : HistoryState α) (i d : Nat) :
    stepState fp l s0 (i + d) =
      runAdds fp ((l.drop i).take d) (stepState fp l s0 i) := by
  unfold stepState
  rw [List.take_add, runAdds_append]

theorem stepState_loading (fp : String) (l : List (Int × α))
    (s0 : HistoryState α) (i : Nat) :
    (stepState fp l s0 i).loading = s0.loading :=
  runAdds_loading fp (l.take i) s0

theorem stepState_stable (fp : String) (l : List (Int × α))
    (s0 : HistoryState α) (k : Nat) (h : l.length ≤ k) :
    stepState fp l s0 (k + 1) = stepState fp l s0 k := by
  unfold stepState
  rw [List.take_of_length_le (by omega), List.take_of_length_le (by omega)]

end StepStateLemmas

/-- C5 (as stated): along any sequence of `_addEntry` calls,
(1) the post-restart marker branch runs at most once: once it has run at
step `i`, it cannot run at any later step `j`;
(2) it runs only when the buffer is full (`memorySize ≤ usedMemory`);
(3) when it runs it advances `firstEntry` by 2 and `lastEntry` to
`firstEntry + usedMemory + 2` - one slot more than (4) an ordinary append on
a full buffer, which advances them by 1 - and clears `restarted`;
(5) and it runs exactly at the first append that finds the buffer full,
provided the restart flag is still set (as it is after construction). -/
theorem claim5_restart_marker :
    (∀ (α : Type) (fp : String) (l : List (Int × α)) (s0 : HistoryState α)
        (i j : Nat), i < j → i < l.length →
        fires (stepState fp l s0 i) → ¬ fires (stepState fp l s0 j)) ∧
    (∀ (α : Type) (s : HistoryState α), fires s → memorySize ≤ s.usedMemory) ∧
    (∀ (α : Type) (fp : String) (now : Int) (p : α) (s : HistoryState α),
        s.refTime ≠ 0 → fires s →
        (addEntry fp now p s).firstEntry = s.firstEntry + 2 ∧
        (addEntry fp now p s).lastEntry = s.firstEntry + s.usedMemory + 2 ∧
        (addEntry fp now p s).restarted = false) ∧
    (∀ (α : Type) (fp : String) (now : Int) (p : α) (s : HistoryState α),
        s.loading = false → s.restarted = false →
        memorySize ≤ s.usedMemory → s.refTime ≠ 0 →
        (addEntry fp now p s).firstEntry = s.firstEntry + 1 ∧
        (addEntry fp now p s).lastEntry = s.firstEntry + s.usedMemory + 1) ∧
    (∀ (α : Type) (fp : String) (l : List (Int × α)) (s0 : HistoryState α)
        (i : Nat), s0.loading = false → s0.restarted = true →
        (∀ k, k < i → (stepState fp l s0 k).usedMemory < memorySize) →
        memorySize ≤ (stepState fp l s0 i).usedMemory →
        fires (stepState fp l s0 i)) := by
  refine ⟨?_, ?_, ?_, ?_, ?_⟩
  · intro α fp l s0 i j hij hilen hfi hfj
    have hrest1 : (stepState fp l s0 (i + 1)).restarted = false := by
      rw [stepState_succ_of_lt fp l s0 i hilen]
      exact addEntry_restarted_false_of_fires _ _ _ _ hfi
    have hj : stepState fp l s0 j =
        runAdds fp ((l.drop (i + 1)).take (j - (i + 1)))
          (stepState fp l s0 (i + 1)) := by
      conv_lhs => rw [show j = (i + 1) + (j - (i + 1)) by omega]
      rw [stepState_add]
    have hrestj : (stepState fp l s0 j).restarted = false := by
      rw [hj]
      exact runAdds_restarted_false _ _ _ hrest1
    rw [hfj.2.2] at hrestj
    exact Bool.noConfusion hrestj
  · intro α s h
    exact h.2.1
  · intro α fp now p s hr hf
    obtain ⟨h1, h2, h3, _, h5, _⟩ :=
      addEntry_full_restarted fp now p s hf.1 (by have := hf.2.1; omega) hf.2.2 hr
    exact ⟨h2, by omega, h5⟩
  · intro α fp now p s hl hres hu hr
    obtain ⟨h1, h2, h3, _⟩ :=
      addEntry_full_notRestarted fp now p s hl (by omega) hres hr
    exact ⟨h2, by omega⟩
  · intro α fp l s0 i hl hres hsmall hfull
    have hresi : ∀ k, k ≤ i → (stepState fp l s0 k).restarted = true := by
      intro k
      induction k with
      | zero => intro _; rw [stepState_zero]; exact hres
      | succ k ih =>
          intro hk
          by_cases hklen : k < l.length
          · rw [stepState_succ_of_lt fp l s0 k hklen]
            rw [addEntry_restarted_of_not_fires]
            · exact ih (by omega)
            · intro hf
              have := hsmall k (by omega)
              have := hf.2.1
              omega
          · rw [stepState_stable fp l s0 k (by omega)]
            exact ih (by omega)
    exact ⟨by rw [stepState_loading]; exact hl, hfull, hresi i (by omega)⟩

/-- Witness for `claim5_restart_marker` at concrete inputs: a full store
with the restart flag pending, two further appends. -/
theorem claim5_restart_marker_witness :
    ((0 : Nat) < 1 ∧ (0 : Nat) < ([((1 : Int), (5 : Nat)), (2, 6)]).length ∧
      fires (stepState ("") [((1 : Int), (5 : Nat)), (2, 6)] fullTestState 0)) ∧
    (¬ fires (stepState ("") [((1 : Int), (5 : Nat)), (2, 6)] fullTestState 1)) ∧
    (memorySize ≤ fullTestState.usedMemory) ∧
    ((addEntry ("") 1 (5 : Nat) fullTestState).firstEntry =
        fullTestState.firstEntry + 2 ∧
      (addEntry ("") 1 (5 : Nat) fullTestState).lastEntry =
        fullTestState.firstEntry + fullTestState.usedMemory + 2 ∧
      (addEntry ("") 1 (5 : Nat) fullTestState).restarted = false) ∧
    ((addEntry ("") 1 (5 : Nat) { fullTestState with restarted := false }).firstEntry =
        { fullTestState with restarted := false }.firstEntry + 1 ∧
      (addEntry ("") 1 (5 : Nat) { fullTestState with restarted := false }).lastEntry =
        { fullTestState with restarted := false }.firstEntry +
          { fullTestState with restarted := false }.usedMemory + 1) ∧
    fires (stepState ("") [((1 : Int), (5 : Nat)), (2, 6)] fullTestState 0) :=
  ⟨⟨by decide, by decide, ⟨rfl, by decide, rfl⟩⟩,
    claim5_restart_marker.1 Nat ("") [((1 : Int), (5 : Nat)), (2, 6)]
      fullTestState 0 1 (by decide) (by decide) ⟨rfl, by decide, rfl⟩,
    claim5_restart_marker.2.1 Nat fullTestState ⟨rfl, by decide, rfl⟩,
    claim5_restart_marker.2.2.1 Nat ("") 1 5 fullTestState (by decide)
      ⟨rfl, by decide, rfl⟩,
    claim5_restart_marker.2.2.2.1 Nat ("") 1 5
      { fullTestState with restarted := false } rfl rfl (by decide) (by decide),
    claim5_restart_marker.2.2.2.2 Nat ("") [((1 : Int), (5 : Nat)), (2, 6)]
      fullTestState 0 rfl rfl (fun k hk => absurd hk (by omega))
      (by rw [stepState_zero]; decide)⟩

/-!  ## C3: the history-request handler and the transfer cursor -/

/-- Closed form of the run of appends at time 1 while the buffer fills:
after the first call (which also writes the reference-time marker) the used
count is `n + 1`. -/
theorem fillRun_bookkeeping : ∀ n, 1 ≤ n → n ≤ 4031 →
    (fillRun n).usedMemory = n + 1 ∧ (fillRun n).firstEntry = 0 ∧
    (fillRun n).lastEntry = n + 1 ∧ (fillRun n).refTime = 1 - epoch ∧
    (fillRun n).restarted = true ∧ (fillRun n).loading = false := by
  intro n
  induction n with
  | zero => omega
  | succ k ih =>
      intro _ hk2
      by_cases hk : k = 0
      · subst hk
        have hfill := addEntry_fill_ref0 ("") 1 () (initialState (α := Unit)) rfl
          (by rw [initialState_usedMemory, memorySize_eq]; omega) rfl
        rw [initialState_usedMemory] at hfill
        have hstep : fillRun 1 = addEntry ("") 1 () initialState := rfl
        rw [hstep]
        exact ⟨hfill.1, hfill.2.1, hfill.2.2.1, hfill.2.2.2.1,
          hfill.2.2.2.2.1, hfill.2.2.2.2.2.1⟩
      · obtain ⟨h1, h2, h3, h4, h5, h6⟩ := ih (by omega) (by omega)
        have hne : (fillRun k).refTime ≠ 0 := by
          rw [h4]
          decide
        have hfill := addEntry_fill_refNe ("") 1 () (fillRun k) h6
          (by rw [h1, memorySize_eq]; omega) hne
        have hstep : fillRun (k + 1) = addEntry ("") 1 () (fillRun k) := rfl
        rw [hstep]
        refine ⟨?_, hfill.2.1, ?_, ?_, ?_, hfill.2.2.2.2.2.1⟩
        · rw [hfill.1, h1]
        · rw [hfill.2.2.1, h1]
        · rw [hfill.2.2.2.1, h4]
        · rw [hfill.2.2.2.2.1, h5]

/-- C3, counterexample: after 4032 appends at time 1 from the empty store the
buffer has wrapped and `firstEntry = 2`; a history-request write whose
decoded start index is 0 (`"AAAAAAAAAAAA"` decodes to index 0) then sets the
cursor to 1, not to `firstIndex() + 1 = 3`.  This refutes the claim as
stated. -/
theorem claim3_counterexample :
    (onSetHistoryRequest ("AAAAAAAAAAAA") (fillRun 4032)).currentEntry = 1 ∧
    (fillRun 4032).firstEntry = 2 ∧
    (onSetHistoryRequest ("AAAAAAAAAAAA") (fillRun 4032)).currentEntry ≠
      ((fillRun 4032).firstEntry : Int) + 1 := by
  obtain ⟨h1, h2, h3, h4, h5, h6⟩ := fillRun_bookkeeping 4031 (by omega) (by omega)
  have hne : (fillRun 4031).refTime ≠ 0 := by
    rw [h4]
    decide
  have hfull := addEntry_full_restarted ("") 1 () (fillRun 4031) h6
    (by rw [h1, memorySize_eq]; omega) h5 hne
  have hstep : fillRun 4032 = addEntry ("") 1 () (fillRun 4031) := rfl
  have hfirst : (fillRun 4032).firstEntry = 2 := by
    rw [hstep, hfull.2.1, h2]
  have hreq : requestEntry ("AAAAAAAAAAAA") = 0 := by decide
  have hcur : (onSetHistoryRequest ("AAAAAAAAAAAA") (fillRun 4032)).currentEntry = 1 := by
    unfold onSetHistoryRequest
    rw [hreq]
    norm_num
  refine ⟨hcur, hfirst, ?_⟩
  rw [hcur, hfirst]
  decide

/-- C3 (amended): a write to the history-request characteristic whose
decoded start index is 0 sets the transfer cursor to the constant 1 - which
equals `firstIndex() + 1` only while the buffer has not wrapped
(`firstEntry = 0`) - and a write with nonzero decoded index `N` sets the
cursor to `N`; both activate the transfer. -/
theorem claim3_request_cursor :
    (∀ (α : Type) (value : String) (s : HistoryState α),
        requestEntry value = 0 →
        (onSetHistoryRequest value s).currentEntry = 1 ∧
        (onSetHistoryRequest value s).transfer = true) ∧
    (∀ (α : Type) (value : String) (s : HistoryState α),
        requestEntry value ≠ 0 →
        (onSetHistoryRequest value s).currentEntry = requestEntry value ∧
        (onSetHistoryRequest value s).transfer = true) := by
  constructor
  · intro α value s h
    unfold onSetHistoryRequest
    rw [h]
    norm_num
  · intro α value s h
    unfold onSetHistoryRequest
    rw [if_pos h]
    exact ⟨rfl, rfl⟩

/-- Witness for `claim3_request_cursor`: a request decoding to index 0 and
one decoding to index 1, against the empty store. -/
theorem claim3_request_cursor_witness :
    (requestEntry ("AAAAAAAAAAAA") = 0 ∧
      (onSetHistoryRequest ("AAAAAAAAAAAA") (initialState (α := Nat))).currentEntry = 1 ∧
      (onSetHistoryRequest ("AAAAAAAAAAAA") (initialState (α := Nat))).transfer = true) ∧
    (requestEntry ("AAABAAAA") ≠ 0 ∧
      (onSetHistoryRequest ("AAABAAAA") (initialState (α := Nat))).currentEntry =
        requestEntry ("AAABAAAA") ∧
      (onSetHistoryRequest ("AAABAAAA") (initialState (α := Nat))).transfer = true) :=
  ⟨⟨by decide,
    claim3_request_cursor.1 Nat ("AAAAAAAAAAAA") initialState (by decide)⟩,
   ⟨by decide,
    claim3_request_cursor.2 Nat ("AAABAAAA") initialState (by decide)⟩⟩

/-!  ## C10: reading entries with no active transfer -/

/-- Reading the entries characteristic when the cursor has passed the last
entry: sentinel chunk, transfer closed. -/
theorem onGetEntries_exhausted {α : Type} (es : Int → Int → HistEntry α → String)
    (s : HistoryState α) (h : s.currentEntry > ((s.lastEntry : Nat) : Int)) :
    onGetEntries es s = ({ s with transfer := false }, hexToBase64 ("00")) := by
  unfold onGetEntries
  rw [if_pos]
  rw [decide_eq_true h]
  rfl

/-- C10: reading the history-entries characteristic while no transfer is
active (`_transfer = false`: no request received yet, or the previous
session already ended in the sentinel) invokes the callback with no error
and the single-byte chunk `00` (base64 `"AA=="`), and leaves the session
inactive. -/
theorem claim10_idle_entries_read (α : Type)
    (es : Int → Int → HistEntry α → String) (s : HistoryState α)
    (h : s.transfer = false) :
    onGetEntries es s = ({ s with transfer := false }, hexToBase64 ("00")) ∧
    (onGetEntries es s).1.transfer = false ∧
    (onGetEntries es s).2 = hexToBase64 ("00") := by
  have hmain : onGetEntries es s = ({ s with transfer := false }, hexToBase64 ("00")) := by
    unfold onGetEntries
    rw [if_pos]
    rw [h]
    simp
  exact ⟨hmain, by rw [hmain], by rw [hmain]⟩

/-- Witness for `claim10_idle_entries_read` on the freshly loaded empty
store. -/
theorem claim10_idle_entries_read_witness :
    (initialState (α := Nat)).transfer = false ∧
    onGetEntries (fun _ _ _ => ("")) (initialState (α := Nat)) =
      ({ (initialState (α := Nat)) with transfer := false }, hexToBase64 ("00")) ∧
    (onGetEntries (fun _ _ _ => ("")) (initialState (α := Nat))).1.transfer = false ∧
    (onGetEntries (fun _ _ _ => ("")) (initialState (α := Nat))).2 = hexToBase64 ("00") :=
  ⟨rfl,
    (claim10_idle_entries_read Nat (fun _ _ _ => ("")) initialState rfl).1,
    (claim10_idle_entries_read Nat (fun _ _ _ => ("")) initialState rfl).2.1,
    (claim10_idle_entries_read Nat (fun _ _ _ => ("")) initialState rfl).2.2⟩

/-!  ## C4: a full transfer of a three-entry store -/

theorem addEntry_protocol_fields {α : Type} (fp : String) (now : Int) (p : α)
    (s : HistoryState α) :
    (addEntry fp now p s).currentEntry = s.currentEntry ∧
    (addEntry fp now p s).transfer = s.transfer ∧
    (addEntry fp now p s).setTime = s.setTime := by
  simp only [addEntry]
  split_ifs <;> exact ⟨rfl, rfl, rfl⟩

theorem onSetHistoryRequest_store_fields {α : Type} (value : String)
    (s : HistoryState α) :
    (onSetHistoryRequest value s).firstEntry = s.firstEntry ∧
    (onSetHistoryRequest value s).lastEntry = s.lastEntry ∧
    (onSetHistoryRequest value s).usedMemory = s.usedMemory ∧
    (onSetHistoryRequest value s).refTime = s.refTime ∧
    (onSetHistoryRequest value s).setTime = s.setTime ∧
    (onSetHistoryRequest value s).history = s.history := by
  simp only [onSetHistoryRequest]
  split_ifs <;> exact ⟨rfl, rfl, rfl, rfl, rfl, rfl⟩

theorem loopstep {α : Type} (es : Int → Int → HistEntry α → String)
    (i : Nat) (s : HistoryState α) (acc : String) :
    onGetEntriesLoop es (i + 1) s acc =
      (if setRefTimeIsOne (s.history (Int.tmod s.currentEntry ((memorySize : Nat) : Int))) ||
          s.setTime || decide (s.currentEntry = ((s.firstEntry : Nat) : Int) + 1) then
        (if s.currentEntry + 1 > ((s.lastEntry : Nat) : Int) then
          ({ s with setTime := false, currentEntry := s.currentEntry + 1 },
            acc ++ setTimeRecord s.currentEntry s.refTime)
        else
          onGetEntriesLoop es i { s with setTime := false, currentEntry := s.currentEntry + 1 }
            (acc ++ setTimeRecord s.currentEntry s.refTime))
      else
        (if s.currentEntry + 1 > ((s.lastEntry : Nat) : Int) then
          ({ s with currentEntry := s.currentEntry + 1 },
            acc ++ es s.currentEntry s.refTime
              (s.history (Int.tmod s.currentEntry ((memorySize : Nat) : Int))))
        else
          onGetEntriesLoop es i { s with currentEntry := s.currentEntry + 1 }
            (acc ++ es s.currentEntry s.refTime
              (s.history (Int.tmod s.currentEntry ((memorySize : Nat) : Int)))))) := by
  conv_lhs => rw [onGetEntriesLoop]
  by_cases hmark : setRefTimeIsOne (s.history (Int.tmod s.currentEntry ((memorySize : Nat) : Int))) ||
      s.setTime || decide (s.currentEntry = ((s.firstEntry : Nat) : Int) + 1)
  · simp only [hmark, if_true, if_pos]
  · rw [Bool.not_eq_true] at hmark
    simp only [hmark, Bool.false_eq_true, if_false]

theorem onGetEntries_threeEntries {α : Type} (es : Int → Int → HistEntry α → String)
    (S : HistoryState α) (t1 t2 t3 rt : Int) (p1 p2 p3 : α)
    (hc : S.currentEntry = 1) (htr : S.transfer = true)
    (hl : S.lastEntry = 4) (hf : S.firstEntry = 0) (hr : S.refTime = rt)
    (h1 : S.history 1 = HistEntry.mark t1)
    (h2 : S.history 2 = HistEntry.data t1 p1)
    (h3 : S.history 3 = HistEntry.data t2 p2)
    (h4 : S.history 4 = HistEntry.data t3 p3) :
    onGetEntries es S =
      ({ S with setTime := false, currentEntry := 5 },
        hexToBase64 (setTimeRecord 1 rt ++ es 2 rt (HistEntry.data t1 p1) ++
          es 3 rt (HistEntry.data t2 p2) ++ es 4 rt (HistEntry.data t3 p3))) := by
  have tm1 : Int.tmod 1 ((memorySize : Nat) : Int) = 1 := by decide
  have tm2 : Int.tmod 2 ((memorySize : Nat) : Int) = 2 := by decide
  have tm3 : Int.tmod 3 ((memorySize : Nat) : Int) = 3 := by decide
  have tm4 : Int.tmod 4 ((memorySize : Nat) : Int) = 4 := by decide
  have hcond : (S.currentEntry > ((S.lastEntry : Nat) : Int) || !S.transfer) = false := by
    rw [hc, hl, htr]
    decide
  have he : ∀ s : String, ("") ++ s = s := fun s => rfl
  have hloop : onGetEntriesLoop es 11 S ("") =
      ({ S with setTime := false, currentEntry := 5 },
        setTimeRecord 1 rt ++ es 2 rt (HistEntry.data t1 p1) ++
          es 3 rt (HistEntry.data t2 p2) ++ es 4 rt (HistEntry.data t3 p3)) := by
    rw [show (11 : Nat) = 10 + 1 from rfl, loopstep]
    rw [hc]
    simp only [hl, hf, hr, tm1, h1]
    simp only [setRefTimeIsOne, Bool.true_or, if_true]
    rw [if_neg (by decide : ¬((1:Int) + 1 > (((4:Nat) : Nat) : Int)))]
    simp only [he]
    rw [show (1:Int) + 1 = 2 from rfl]
    rw [show (10:Nat) = 9 + 1 from rfl, loopstep]
    simp only [tm2, h2, setRefTimeIsOne, Bool.false_or]
    rw [if_neg (by decide : ¬(decide ((2:Int) = (((0:Nat)) : Int) + 1) = true))]
    rw [if_neg (by decide : ¬((2:Int) + 1 > (((4:Nat)) : Int)))]
    rw [show (2:Int) + 1 = 3 from rfl]
    rw [show (9:Nat) = 8 + 1 from rfl, loopstep]
    simp only [tm3, h3, setRefTimeIsOne, Bool.false_or]
    rw [if_neg (by decide : ¬(decide ((3:Int) = (((0:Nat)) : Int) + 1) = true))]
    rw [if_neg (by decide : ¬((3:Int) + 1 > (((4:Nat)) : Int)))]
    rw [show (3:Int) + 1 = 4 from rfl]
    rw [show (8:Nat) = 7 + 1 from rfl, loopstep]
    simp only [tm4, h4, setRefTimeIsOne, Bool.false_or]
    rw [if_neg (by decide : ¬(decide ((4:Int) = (((0:Nat)) : Int) + 1) = true))]
    rw [if_pos (by decide : ((4:Int) + 1 > (((4:Nat)) : Int)))]
    rw [show (4:Int) + 1 = 5 from rfl]
  simp only [onGetEntries, hcond, Bool.false_eq_true, if_false, hloop]

/-- C4: starting a transfer with requested entry index 0 (request payload
`"AAAAAAAAAAAA"` decodes to index 0) on a store holding exactly 3 appended
entries yields, on the first read of the entries characteristic, one chunk
consisting of a leading set-reference-time record followed by the three
entry records; the next read returns the single-byte sentinel `00` and the
session becomes inactive.  Stated for every adapter (`es` is the adapter's
`_entryStream`), every fingerprint and all entry times and payloads, with
the sole proviso that the first entry's time is not the device epoch (else
the store would not hold exactly three entries - see C1). -/
theorem claim4_three_entry_transfer (α : Type) (fp : String)
    (es : Int → Int → HistEntry α → String) (t1 t2 t3 : Int) (p1 p2 p3 : α)
    (ht : t1 ≠ epoch) :
    (onGetEntries es (onSetHistoryRequest ("AAAAAAAAAAAA")
        (addEntry fp t3 p3 (addEntry fp t2 p2 (addEntry fp t1 p1 initialState))))).2 =
      hexToBase64 (setTimeRecord 1 (t1 - epoch) ++
        es 2 (t1 - epoch) (HistEntry.data t1 p1) ++
        es 3 (t1 - epoch) (HistEntry.data t2 p2) ++
        es 4 (t1 - epoch) (HistEntry.data t3 p3)) ∧
    (onGetEntries es (onGetEntries es (onSetHistoryRequest ("AAAAAAAAAAAA")
        (addEntry fp t3 p3 (addEntry fp t2 p2 (addEntry fp t1 p1 initialState))))).1).2 =
      hexToBase64 ("00") ∧
    (onGetEntries es (onGetEntries es (onSetHistoryRequest ("AAAAAAAAAAAA")
        (addEntry fp t3 p3 (addEntry fp t2 p2 (addEntry fp t1 p1 initialState))))).1).1.transfer =
      false := by
  have A1 := addEntry_fill_ref0 fp t1 p1 (initialState (α := α)) rfl
    (by rw [initialState_usedMemory, memorySize_eq]; omega) rfl
  rw [initialState_usedMemory] at A1
  norm_num [memorySize_eq] at A1
  obtain ⟨a1u, a1f, a1l, a1r, a1res, a1load, a1i, a1h⟩ := A1
  have hrne : (addEntry fp t1 p1 (initialState (α := α))).refTime ≠ 0 := by
    rw [a1r]
    exact sub_ne_zero_of_ne ht
  have A2 := addEntry_fill_refNe fp t2 p2 (addEntry fp t1 p1 initialState) a1load
    (by rw [a1u, memorySize_eq]; omega) hrne
  rw [a1u, a1r, a1h] at A2
  norm_num [memorySize_eq] at A2
  obtain ⟨a2u, a2f, a2l, a2r, a2res, a2load, a2i, a2h⟩ := A2
  have hrne2 : (addEntry fp t2 p2 (addEntry fp t1 p1 (initialState (α := α)))).refTime ≠ 0 := by
    rw [a2r]
    exact sub_ne_zero_of_ne ht
  have A3 := addEntry_fill_refNe fp t3 p3 _ a2load
    (by rw [a2u, memorySize_eq]; omega) hrne2
  rw [a2u, a2r, a2h] at A3
  norm_num [memorySize_eq] at A3
  obtain ⟨a3u, a3f, a3l, a3r, a3res, a3load, a3i, a3h⟩ := A3
  have hreq : requestEntry ("AAAAAAAAAAAA") = 0 := by decide
  have B := onSetHistoryRequest_store_fields (α := α) ("AAAAAAAAAAAA")
    (addEntry fp t3 p3 (addEntry fp t2 p2 (addEntry fp t1 p1 initialState)))
  obtain ⟨bf, bl, bu, br, bs, bh⟩ := B
  rw [a3f] at bf
  rw [a3l] at bl
  rw [a3r] at br
  rw [a3h] at bh
  have hct : (onSetHistoryRequest ("AAAAAAAAAAAA")
      (addEntry fp t3 p3 (addEntry fp t2 p2 (addEntry fp t1 p1 initialState)))).currentEntry = 1 ∧
      (onSetHistoryRequest ("AAAAAAAAAAAA")
      (addEntry fp t3 p3 (addEntry fp t2 p2 (addEntry fp t1 p1 initialState)))).transfer = true := by
    simp only [onSetHistoryRequest, hreq]
    norm_num
  obtain ⟨hc, htr⟩ := hct
  have H1 : (onSetHistoryRequest ("AAAAAAAAAAAA")
      (addEntry fp t3 p3 (addEntry fp t2 p2 (addEntry fp t1 p1 initialState)))).history 1 =
      HistEntry.mark t1 := by
    rw [bh]
    norm_num [fupd]
  have H2 : (onSetHistoryRequest ("AAAAAAAAAAAA")
      (addEntry fp t3 p3 (addEntry fp t2 p2 (addEntry fp t1 p1 initialState)))).history 2 =
      HistEntry.data t1 p1 := by
    rw [bh]
    norm_num [fupd]
  have H3 : (onSetHistoryRequest ("AAAAAAAAAAAA")
      (addEntry fp t3 p3 (addEntry fp t2 p2 (addEntry fp t1 p1 initialState)))).history 3 =
      HistEntry.data t2 p2 := by
    rw [bh]
    norm_num [fupd]
  have H4 : (onSetHistoryRequest ("AAAAAAAAAAAA")
      (addEntry fp t3 p3 (addEntry fp t2 p2 (addEntry fp t1 p1 initialState)))).history 4 =
      HistEntry.data t3 p3 := by
    rw [bh]
    norm_num [fupd]
  have key := onGetEntries_threeEntries es _ t1 t2 t3 (t1 - epoch) p1 p2 p3
    hc htr bl bf br H1 H2 H3 H4
  have hex := onGetEntries_exhausted es
    ({ (onSetHistoryRequest ("AAAAAAAAAAAA")
        (addEntry fp t3 p3 (addEntry fp t2 p2 (addEntry fp t1 p1 initialState)))) with
        setTime := false, currentEntry := 5 } : HistoryState α)
    (by
      rw [show ({ (onSetHistoryRequest ("AAAAAAAAAAAA")
        (addEntry fp t3 p3 (addEntry fp t2 p2 (addEntry fp t1 p1 initialState)))) with
        setTime := false, currentEntry := 5 } : HistoryState α).lastEntry =
        (onSetHistoryRequest ("AAAAAAAAAAAA")
        (addEntry fp t3 p3 (addEntry fp t2 p2 (addEntry fp t1 p1 initialState)))).lastEntry from rfl]
      rw [bl]
      show (5 : Int) > (((4 : Nat)) : Int)
      decide)
  refine ⟨by rw [key], ?_, ?_⟩
  · rw [key, hex]
  · rw [key, hex]

/-- Witness for `claim4_three_entry_transfer` at a concrete input. -/
theorem claim4_three_entry_transfer_witness :
    (1000 : Int) ≠ epoch ∧
    ((onGetEntries (fun _ _ _ => ("")) (onSetHistoryRequest ("AAAAAAAAAAAA")
        (addEntry ("") 1002 (3 : Nat) (addEntry ("") 1001 2
          (addEntry ("") 1000 1 initialState))))).2 =
      hexToBase64 (setTimeRecord 1 (1000 - epoch) ++ ("") ++ ("") ++ ("")) ∧
    (onGetEntries (fun _ _ _ => ("")) (onGetEntries (fun _ _ _ => (""))
        (onSetHistoryRequest ("AAAAAAAAAAAA")
        (addEntry ("") 1002 (3 : Nat) (addEntry ("") 1001 2
          (addEntry ("") 1000 1 initialState))))).1).2 = hexToBase64 ("00") ∧
    (onGetEntries (fun _ _ _ => ("")) (onGetEntries (fun _ _ _ => (""))
        (onSetHistoryRequest ("AAAAAAAAAAAA")
        (addEntry ("") 1002 (3 : Nat) (addEntry ("") 1001 2
          (addEntry ("") 1000 1 initialState))))).1).1.transfer = false) :=
  ⟨by decide,
    claim4_three_entry_transfer Nat ("") (fun _ _ _ => ("")) 1000 1001 1002
      1 2 3 (by decide)⟩

/-!  ## C6: appends arriving while the persisted state is loading -/

/-- C6, counterexample to the ordering part of the claim: two `_addEntry`
calls arrive while the load is outstanding - at 0 ms (entry time 2000000000,
payload 1) and at 50 ms (entry time 2000000001, payload 2) - and the load
completes at 120 ms.  The first call's retry at 100 ms still finds the flag
set and is re-scheduled for 200 ms; the second call's retry at 150 ms runs
first.  The later-arriving entry lands at ring index 2 and the earlier one
at index 3: the entries are appended, but not in call order. -/
theorem claim6_counterexample :
    c6run.hist.history 2 = HistEntry.data 2000000001 2 ∧
    c6run.hist.history 3 = HistEntry.data 2000000000 1 := by
  decide

/-- C6 (amended): an `_addEntry` call that arrives while the load flag is
set does not mutate the store, and is not dropped - a retry carrying the
same arguments is scheduled 100 ms later; once loading completes the retries
do append the deferred entries (both entries of the concrete schedule above
are present in the final store), but their order can differ from call order
when the load outlasts the 100 ms retry delay. -/
theorem claim6_deferred_addEntry :
    (∀ (α : Type) (fp : String) (now : Int) (p : α) (s : HistoryState α),
        s.loading = true → addEntry fp now p s = s) ∧
    (∀ (α : Type) (fp : String) (now : Int) (p : α) (t : Nat) (s : SchedState α),
        s.hist.loading = true →
        handleAddEntry fp now p t s =
          { s with timers := s.timers ++ [(t + 100, now, p)] }) ∧
    (c6run.hist.usedMemory = 3 ∧ c6run.hist.loading = false ∧
      c6run.timers = [] ∧
      c6run.hist.history 2 = HistEntry.data 2000000001 2 ∧
      c6run.hist.history 3 = HistEntry.data 2000000000 1) := by
  refine ⟨?_, ?_, by decide, by decide, by decide, ?_, ?_⟩
  · intro α fp now p s h
    exact addEntry_of_loading fp now p s h
  · intro α fp now p t s h
    unfold handleAddEntry
    rw [if_pos h]
  · decide
  · decide

/-- Witness for `claim6_deferred_addEntry` at concrete inputs: the freshly
constructed (still loading) state. -/
theorem claim6_deferred_addEntry_witness :
    ((constructedState (α := Nat)).loading = true ∧
      addEntry ("") 5 (0 : Nat) constructedState = constructedState) ∧
    ((⟨constructedState, []⟩ : SchedState Nat).hist.loading = true ∧
      handleAddEntry ("") 5 (0 : Nat) 7 (⟨constructedState, []⟩ : SchedState Nat) =
        { (⟨constructedState, []⟩ : SchedState Nat) with
            timers := (⟨constructedState, []⟩ : SchedState Nat).timers ++ [(7 + 100, 5, 0)] }) :=
  ⟨⟨rfl, claim6_deferred_addEntry.1 Nat ("") 5 0 constructedState rfl⟩,
   ⟨rfl, claim6_deferred_addEntry.2.1 Nat ("") 5 0 7 ⟨constructedState, []⟩ rfl⟩⟩

/-!  ## C7: the Contact didSet handler -/

/-- C7, the code evaluated at the failing input: a contact transition
`0 → 1` with `timesOpened = 7` and `initialTime = 1690000000`, at wall time
`T = 1700000000`.  `timesOpened` does increment by 1 and the entry status
passed to `_addEntry` is 1 (with the Contact fingerprint `01 0601`), but
`lastActivation` is set to NaN (`moment.unix()` is called without an
argument, producing an invalid moment), not to
`T - initialTime = 10000000`; the `now` passed to `_addEntry` is that same
NaN, not `T`. -/
theorem claim7_contact_didSet_bug :
    (contactOnDidSet 1 ⟨some 7, some 0, some 1690000000, 0⟩).state.timesOpened = some 8 ∧
    (contactOnDidSet 1 ⟨some 7, some 0, some 1690000000, 0⟩).state.lastActivation = none ∧
    (contactOnDidSet 1 ⟨some 7, some 0, some 1690000000, 0⟩).state.lastActivation ≠
      some (1700000000 - 1690000000) ∧
    (contactOnDidSet 1 ⟨some 7, some 0, some 1690000000, 0⟩).addEntryStatus = 1 ∧
    (contactOnDidSet 1 ⟨some 7, some 0, some 1690000000, 0⟩).addEntryNow = none ∧
    contactFingerPrint = ("01 0601") := by
  decide

/-!  ## C8: the hex-to-base64 codec never fails on odd-length input -/

/-- C8, counterexample: the input `"abc"` strips to the odd-length hex string
`abc`, and `hexToBase64` returns the ordinary value `"qw=="` (the base64 of
the single byte `ab`) instead of failing: `Buffer.from(hex, 'hex')`
truncates, it never throws. -/
theorem claim8_counterexample :
    (stripNonHex ("abc")).length % 2 = 1 ∧ hexToBase64 ("abc") = ("qw==") := by
  decide

theorem hexPairsToBytes_dropLast :
    ∀ (l : List Char), l.length % 2 = 1 →
      hexPairsToBytes l = hexPairsToBytes l.dropLast := by
  have key : ∀ (n : Nat) (l : List Char), l.length ≤ n → l.length % 2 = 1 →
      hexPairsToBytes l = hexPairsToBytes l.dropLast := by
    intro n
    induction n with
    | zero =>
        intro l hl hodd
        omega
    | succ n ih =>
        intro l hl hodd
        match l with
        | [] => simp at hodd
        | [c] => rfl
        | c1 :: c2 :: rest =>
            match rest with
            | [] => simp at hodd
            | r :: rs =>
                have hodd2 : (r :: rs).length % 2 = 1 := by
                  simp at hodd ⊢
                  omega
                have hlen : (r :: rs).length ≤ n := by
                  simp at hl ⊢
                  omega
                show _ :: hexPairsToBytes (r :: rs) = _ :: hexPairsToBytes (r :: rs).dropLast
                rw [ih (r :: rs) hlen hodd2]
  exact fun l => key l.length l (le_refl _)

/-- C8 (amended): `hexToBase64` never raises on an input whose stripped
remainder has odd length - the trailing lone hex digit is silently dropped:
the result equals `hexToBase64` of the even-length truncation of the
stripped input. -/
theorem claim8_odd_hex_truncated (s : String)
    (h : (stripNonHex s).length % 2 = 1) :
    hexToBase64 s = hexToBase64 (String.mk ((stripNonHex s).dropLast)) := by
  unfold hexToBase64
  have hstrip : stripNonHex (String.mk ((stripNonHex s).dropLast)) =
      (stripNonHex s).dropLast := by
    have : stripNonHex (String.mk ((stripNonHex s).dropLast)) =
        ((stripNonHex s).dropLast).filter (fun c => (hexCharVal c).isSome) := rfl
    rw [this]
    refine List.filter_eq_self.mpr ?_
    intro a ha
    have hmem : a ∈ List.filter (fun c => (hexCharVal c).isSome) s.toList :=
      (List.dropLast_sublist _).subset ha
    exact (List.mem_filter.mp hmem).2
  rw [hstrip]
  rw [hexPairsToBytes_dropLast _ h]

/-- Witness for `claim8_odd_hex_truncated` at the input `"abc"`. -/
theorem claim8_odd_hex_truncated_witness :
    (stripNonHex ("abc")).length % 2 = 1 ∧
    hexToBase64 ("abc") = hexToBase64 (String.mk ((stripNonHex ("abc")).dropLast)) :=
  ⟨by decide, claim8_odd_hex_truncated ("abc") (by decide)⟩

/-!  ## C9: double byte swap -/

theorem toUint32_lt (v : Int) : toUint32 v < 4294967296 := by
  unfold toUint32
  omega

theorem toUint32_asInt32 (u : Nat) : toUint32 (asInt32 u) = u % 4294967296 := by
  unfold toUint32 asInt32
  split <;> omega

theorem toUint32_natCast (n : Nat) : toUint32 ((n : Nat) : Int) = n % 4294967296 := by
  unfold toUint32
  omega

theorem asInt32_mod (u : Nat) : asInt32 (u % 4294967296) = asInt32 u := by
  unfold asInt32
  have h : u % 4294967296 % 4294967296 = u % 4294967296 := by omega
  rw [h]

theorem jsOr_shape (a b : Int) : jsOr a b = asInt32 (toUint32 (jsOr a b)) := by
  unfold jsOr
  rw [toUint32_asInt32, asInt32_mod]

theorem swap32_shape (v : Int) : swap32 v = asInt32 (toUint32 (swap32 v)) := by
  unfold swap32
  exact jsOr_shape _ _

theorem asInt32_toUint32 (v : Int) (h1 : -2147483648 ≤ v) (h2 : v < 2147483648) :
    asInt32 (toUint32 v) = v := by
  unfold asInt32 toUint32
  split <;> omega

theorem testBit_mod_M (x i : Nat) :
    (x % 4294967296).testBit i = (decide (i < 32) && x.testBit i) := by
  rw [show (4294967296 : Nat) = 2 ^ 32 by norm_num, Nat.testBit_mod_two_pow]

theorem testBit_255 (i : Nat) : Nat.testBit 255 i = decide (i < 8) := by
  rw [show (255 : Nat) = 2 ^ 8 - 1 by norm_num, Nat.testBit_two_pow_sub_one]

theorem testBit_65280 (i : Nat) :
    Nat.testBit 65280 i = (decide (8 ≤ i) && decide (i < 16)) := by
  rw [show (65280 : Nat) = (2 ^ 8 - 1) <<< 8 by decide, Nat.testBit_shiftLeft,
    Nat.testBit_two_pow_sub_one]
  by_cases h1 : 8 ≤ i
  · by_cases h2 : i < 16 <;>
      simp [h1, h2, ge_iff_le] <;> omega
  · simp [h1, ge_iff_le]

theorem testBit_toUint32_swap32 (v : Int) (i : Nat) :
    (toUint32 (swap32 v)).testBit i =
      (decide (i < 32) && (toUint32 v).testBit (byteMap i)) := by
  unfold swap32 jsOr jsAnd jsShl jsShrU
  have t255 : toUint32 (255 : Int) = 255 := by decide
  have t65280 : toUint32 (65280 : Int) = 65280 := by decide
  simp only [toUint32_asInt32, toUint32_natCast, t255, t65280]
  norm_num
  have hu := toUint32_lt v
  generalize toUint32 v = u at *
  simp only [testBit_mod_M, Nat.testBit_lor, Nat.testBit_land, Nat.testBit_shiftLeft,
    Nat.testBit_shiftRight, testBit_255, testBit_65280]
  by_cases h32 : i < 32
  · by_cases h8 : i < 8
    · simp [byteMap, h8, h32, ge_iff_le, show ¬ 24 ≤ i by omega, show ¬ 8 ≤ i by omega,
        Nat.add_comm 24 i]
    · by_cases h16 : i < 16
      · simp [byteMap, h8, h16, h32, ge_iff_le, show 8 ≤ i by omega,
          show ¬ 24 ≤ i by omega, show ¬ i < 8 by omega,
          show i - 8 < 8 by omega, show ¬ 8 ≤ i - 8 by omega,
          Nat.add_comm 8 i]
      · by_cases h24 : i < 24
        · simp [byteMap, h8, h16, h24, h32, ge_iff_le, show 8 ≤ i by omega,
            show ¬ 24 ≤ i by omega, show 8 ≤ i - 8 by omega, show i - 8 < 16 by omega,
            show ¬ i - 8 < 8 by omega, show ¬ i < 16 by omega, show i - 8 < 32 by omega]
        · simp [byteMap, h8, h16, h24, h32, ge_iff_le, show 8 ≤ i by omega,
            show 24 ≤ i by omega, show i - 24 < 8 by omega, show ¬ i < 16 by omega,
            show ¬ i - 8 < 16 by omega, show i - 24 < 32 by omega]
  · simp [h32]

theorem byteMap_lt (i : Nat) (h : i < 32) : byteMap i < 32 := by
  unfold byteMap
  split_ifs <;> omega

theorem byteMap_byteMap (i : Nat) (h : i < 32) : byteMap (byteMap i) = i := by
  unfold byteMap
  split_ifs <;> omega

/-- C9, counterexample: for the 32-bit value `v = 2147483648` (`2^31`),
`swap32(swap32(v))` is `-2147483648`, not `v`: every JS bitwise operator
returns a signed 32-bit result, so the double swap yields `ToInt32(v)`,
which differs from `v` as a number on `[2^31, 2^32)`. -/
theorem claim9_counterexample :
    swap32 (swap32 2147483648) = -2147483648 ∧
    ¬ swap32 (swap32 2147483648) = 2147483648 := by
  decide

/-- C9 (amended): the double swap is the identity on the 32-bit *pattern*
for every integral input (`toUint32 (swap32 (swap32 v)) = toUint32 v`), and
`swap32 (swap32 v) = v` as numbers exactly on the signed 32-bit range
`[-2^31, 2^31)`. -/
theorem claim9_swap32_involution :
    (∀ v : Int, toUint32 (swap32 (swap32 v)) = toUint32 v) ∧
    (∀ v : Int, -2147483648 ≤ v → v < 2147483648 → swap32 (swap32 v) = v) := by
  have pat : ∀ v : Int, toUint32 (swap32 (swap32 v)) = toUint32 v := by
    intro v
    apply Nat.eq_of_testBit_eq
    intro i
    rw [testBit_toUint32_swap32, testBit_toUint32_swap32]
    by_cases h32 : i < 32
    · rw [byteMap_byteMap i h32]
      simp [h32, byteMap_lt i h32]
    · have hb : (toUint32 v).testBit i = false := by
        apply Nat.testBit_lt_two_pow
        calc toUint32 v < 4294967296 := toUint32_lt v
        _ = 2 ^ 32 := by norm_num
        _ ≤ 2 ^ i := Nat.pow_le_pow_right (by norm_num) (by omega)
      simp [h32, hb]
  refine ⟨pat, ?_⟩
  intro v h1 h2
  have hs := swap32_shape (swap32 v)
  rw [hs, pat v, asInt32_toUint32 v h1 h2]

/-- Witness for `claim9_swap32_involution` at a concrete input. -/
theorem claim9_swap32_involution_witness :
    toUint32 (swap32 (swap32 305419896)) = toUint32 305419896 ∧
    (-2147483648 : Int) ≤ 305419896 ∧ (305419896 : Int) < 2147483648 ∧
    swap32 (swap32 305419896) = 305419896 :=
  ⟨claim9_swap32_involution.1 305419896, by decide, by decide,
    claim9_swap32_involution.2 305419896 (by decide) (by decide)⟩


end HomebridgeLib
